import Mathlib

/-!
Verification development for the audio capture pipeline of launch-control
(src/agent_framework/audio/receiver.py and transcription.py).

The Python code is shallowly embedded: Python floats are modelled as exact
rationals, numpy sample arrays as lists of rationals, and the per-frame
sounddevice callback as a pure state-transition function on the receiver
state.  The asyncio hand-off queue is modelled as a bounded list (producer
side) together with a small step relation for the consumer drain loop.
-/

namespace LaunchControl

/-- One audio frame: the mono sample block `indata` handed to the callback. -/
abbrev Frame := List ℚ

/-- Numeric configuration fields of `AudioConfig` (receiver.py).  Credential,
device and service-selection fields, which no modelled operation reads, are
omitted.  Defaults are the source defaults. -/
structure AudioConfig where
  sample_rate : ℕ := 44100
  channels : ℕ := 1
  audio_threshold : ℚ := 5 / 1000
  silence_threshold : ℚ := 1
  min_duration : ℚ := 1 / 2
  max_duration : ℚ := 30
  pre_roll : ℚ := 1 / 2
  post_roll : ℚ := 1 / 2
  queue_size : ℕ := 100

/-- Python `int()` applied to a float: truncation toward zero. -/
def pyTrunc (q : ℚ) : ℤ := if q < 0 then ⌈q⌉ else ⌊q⌋

/-- Capacity bound of the pre-roll buffer, from the callback:
`pre_roll_frames = int(self.config.pre_roll * self.config.sample_rate / frames)`
where `frames` is the sample count of the current block. -/
def pre_roll_frames (cfg : AudioConfig) (frames : ℕ) : ℤ :=
  pyTrunc (cfg.pre_roll * (cfg.sample_rate : ℚ) / (frames : ℚ))

/-- Sum of squared samples of a frame. -/
def sumOfSquares (f : Frame) : ℚ := (f.map fun s => s * s).sum

/-- Mean of squared samples: `np.mean(np.square(indata))`. -/
def meanSquare (f : Frame) : ℚ := sumOfSquares f / (f.length : ℚ)

/-- The callback's comparison `rms > threshold` where
`rms = np.sqrt(np.mean(np.square(indata)))`.  Encoded without a square root:
for a nonempty frame, `sqrt m > t` holds iff `t < 0` or `t * t < m`; the
equivalence with the square-root form is proved in `rms_exceeds_sqrt_spec`. -/
def rms_exceeds (f : Frame) (t : ℚ) : Bool :=
  decide (t < 0) || decide (t * t < meanSquare f)

/-- Mutable state of `AudioReceiver` that the frame callback touches, plus the
hand-off queue contents, whether `start()` has recorded the running loop, and a
count of the queue-overflow warnings that were logged. -/
structure ReceiverState where
  pre_roll_buffer : List Frame := []
  recording : Bool := false
  audio_frames : List Frame := []
  silence_counter : ℚ := 0
  recording_duration : ℚ := 0
  audio_queue : List (List ℚ) := []
  loop_set : Bool := false
  dropped_count : ℕ := 0

/-- State right after `__init__`: everything empty, `self.loop` unset. -/
def initial_state : ReceiverState := {}

/-- State once `start()` has stored the running event loop (all the runs
considered below begin here, with the drain loop available). -/
def started_state : ReceiverState := { initial_state with loop_set := true }

/-- Embeds `asyncio.Queue.full()`: a queue with `maxsize <= 0` is unbounded and never
full; otherwise it is full when it holds at least `maxsize` items. -/
def queue_full (cfg : AudioConfig) (q : List (List ℚ)) : Bool :=
  decide (0 < cfg.queue_size) && decide (cfg.queue_size ≤ q.length)

/-- Embeds `AudioReceiver._start_recording`. -/
def start_recording (s : ReceiverState) : ReceiverState :=
  { s with recording := true
           audio_frames := s.pre_roll_buffer
           silence_counter := 0
           recording_duration := 0 }

/-- Embeds `AudioReceiver._should_stop_recording`. -/
def should_stop_recording (cfg : AudioConfig) (s : ReceiverState) : Bool :=
  (decide (cfg.silence_threshold ≤ s.silence_counter) ||
   decide (cfg.max_duration ≤ s.recording_duration)) &&
  decide (cfg.min_duration ≤ s.recording_duration)

/-- Embeds `AudioReceiver._stop_recording`: leave the recording state, concatenate the
utterance frames into one contiguous sample sequence, enqueue it when the loop
reference is set and the queue is not full (the scheduled `audio_queue.put` is
modelled as taking effect immediately), otherwise drop it and log one warning;
finally clear the utterance buffer. -/
def stop_recording (cfg : AudioConfig) (s : ReceiverState) : ReceiverState :=
  let s1 := { s with recording := false }
  let audio_data := s1.audio_frames.flatten
  let s2 :=
    if s1.loop_set && !queue_full cfg s1.audio_queue then
      { s1 with audio_queue := s1.audio_queue ++ [audio_data] }
    else
      { s1 with dropped_count := s1.dropped_count + 1 }
  { s2 with audio_frames := [] }

/-- Embeds `AudioReceiver._handle_recording`. -/
def handle_recording (cfg : AudioConfig) (s : ReceiverState) (indata : Frame) :
    ReceiverState :=
  let s1 := { s with audio_frames := s.audio_frames ++ [indata] }
  let fd : ℚ := (indata.length : ℚ) / (cfg.sample_rate : ℚ)
  let s2 := { s1 with recording_duration := s1.recording_duration + fd }
  let s3 :=
    if !rms_exceeds indata cfg.audio_threshold then
      { s2 with silence_counter := s2.silence_counter + fd }
    else
      { s2 with silence_counter := 0 }
  if should_stop_recording cfg s3 then stop_recording cfg s3 else s3

/-- Pre-roll maintenance at the top of `AudioReceiver._audio_callback`: append
the frame, then pop the oldest one if the buffer exceeds `pre_roll_frames`. -/
def update_pre_roll (cfg : AudioConfig) (s : ReceiverState) (indata : Frame) :
    ReceiverState :=
  let buf := s.pre_roll_buffer ++ [indata]
  { s with pre_roll_buffer :=
      if (buf.length : ℤ) > pre_roll_frames cfg indata.length then buf.tail
      else buf }

/-- Embeds `AudioReceiver._audio_callback` on one frame (`frames = len(indata)`). -/
def audio_callback (cfg : AudioConfig) (s : ReceiverState) (indata : Frame) :
    ReceiverState :=
  let s1 := update_pre_roll cfg s indata
  let s2 :=
    if !s1.recording && rms_exceeds indata cfg.audio_threshold then
      start_recording s1
    else s1
  if s2.recording then handle_recording cfg s2 indata else s2

/-- Folding the callback over a list of incoming frames. -/
def run_frames (cfg : AudioConfig) (s : ReceiverState) (fs : List Frame) :
    ReceiverState :=
  fs.foldl (audio_callback cfg) s

/-! The consumer side, `AudioReceiver._process_audio_queue`:

```
while not self.terminate_flag.is_set():
    audio_data = await self.audio_queue.get()
    ...
```

modelled as a small-step machine.  `checking` is the `while` test, `waiting`
is being suspended inside `await self.audio_queue.get()`.  Crucially, per the
source, the `await` completes only when an item is available: the terminate
flag is not consulted while suspended in `get()`. -/

inductive DrainPhase
  | checking
  | waiting
  | done
deriving DecidableEq

/-- State of the drain loop: its control point, the queue contents, whether
`terminate_flag` is set, and the items handed to `_transcribe_audio` so far. -/
structure DrainState where
  phase : DrainPhase
  queue : List (List ℚ)
  terminated : Bool
  processed : List (List ℚ)

/-- One step of the drain loop. -/
def drain_step (d : DrainState) : DrainState :=
  match d.phase with
  | .done => d
  | .checking =>
    if d.terminated then { d with phase := .done }
    else { d with phase := .waiting }
  | .waiting =>
    match d.queue with
    | [] => d
    | x :: rest =>
      { d with phase := .checking, queue := rest,
               processed := d.processed ++ [x] }

/-- Iterated drain-loop steps. -/
def drain_iter : ℕ → DrainState → DrainState
  | 0, d => d
  | n + 1, d => drain_iter n (drain_step d)

/-! Transcription backends (transcription.py).  The network call made inside
the `try` block of each `transcribe` is modelled by an explicit outcome value:
either the call raised (any exception, caught by the `except` clause) or it
returned a response. -/

/-- Embeds `TranscriptionResult` (transcription.py). -/
structure TranscriptionResult where
  text : String
  confidence : ℚ := 1
  language : String := "en-US"
deriving DecidableEq

/-- One alternative inside a Google recognize result. -/
structure SpeechAlternative where
  transcript : String
  confidence : ℚ
deriving DecidableEq

/-- Outcome of `self.client.recognize(...)` as observed by the `try` block of
`GoogleChirpService.transcribe`: an exception, or a response carrying
`results`, each with its list of `alternatives`. -/
inductive GoogleOutcome
  | failure (msg : String)
  | response (results : List (List SpeechAlternative))

/-- Embeds `GoogleChirpService.transcribe`: exceptions are logged and turned into
`None`; an empty `results` list yields `None`; an empty `alternatives` list
raises `IndexError` inside the `try`, which the `except` clause also turns
into `None`; otherwise the first alternative is stripped and returned. -/
def googleChirpTranscribe (language : String) (o : GoogleOutcome) :
    Option TranscriptionResult :=
  match o with
  | .failure _ => none
  | .response [] => none
  | .response ([] :: _) => none
  | .response ((a :: _) :: _) =>
    some { text := a.transcript.trim, confidence := a.confidence,
           language := language }

/-- Outcome of the OpenAI call inside `OpenAIWhisperService.transcribe`. -/
inductive WhisperOutcome
  | failure (msg : String)
  | response (text : String)

/-- Embeds `OpenAIWhisperService.transcribe`: exceptions are logged and turned into
`None`; a response yields the stripped text with default confidence. -/
def whisperTranscribe (language : String) (o : WhisperOutcome) :
    Option TranscriptionResult :=
  match o with
  | .failure _ => none
  | .response t => some { text := t.trim, language := language }

/-- The `on_transcription` sink invocations that
`AudioReceiver._transcribe_audio` performs for one dequeued utterance, from
`if result and result.text:` — a present result (always truthy as an object)
whose text is a non-empty string. -/
def sink_invocations (result : Option TranscriptionResult) : List String :=
  match result with
  | none => []
  | some r => if r.text = "" then [] else [r.text]

/-- Proof-side abbreviation: the intermediate state of `_handle_recording`
after the frame append and the counter updates, before the stop check. -/
def after_counters (cfg : AudioConfig) (s : ReceiverState) (f : Frame) :
    ReceiverState :=
  { s with audio_frames := s.audio_frames ++ [f]
           recording_duration := s.recording_duration +
             (f.length : ℚ) / (cfg.sample_rate : ℚ)
           silence_counter :=
             if rms_exceeds f cfg.audio_threshold then 0
             else s.silence_counter + (f.length : ℚ) / (cfg.sample_rate : ℚ) }

/-- Concrete configuration used by several witnesses: one sample per second
(so each one-sample frame lasts exactly one second), threshold 1/2, silence
threshold 3 s, minimum 5 s, maximum 30 s, pre-roll 2 s. -/
def cfgA : AudioConfig :=
  { sample_rate := 1, audio_threshold := 1 / 2, silence_threshold := 3,
    min_duration := 5, max_duration := 30, pre_roll := 2, queue_size := 100 }

/-- Concrete mid-recording state for the C1 witness. -/
def sA : ReceiverState :=
  { pre_roll_buffer := [[1]], recording := true, audio_frames := [[1]],
    silence_counter := 3, recording_duration := 5, audio_queue := [],
    loop_set := true, dropped_count := 0 }

/-- Concrete configuration for the C3 witness: frame duration 1 s,
min_duration 2 s, max_duration 3 s. -/
def cfgB : AudioConfig :=
  { sample_rate := 1, audio_threshold := 1 / 2, silence_threshold := 3,
    min_duration := 2, max_duration := 3, pre_roll := 2, queue_size := 100 }

/-- Concrete configuration exposing the floor/ceiling discrepancy of the
pre-roll capacity: `pre_roll * sample_rate / frame_len = 5/2` for one-sample
frames. -/
def cfgC : AudioConfig := { sample_rate := 2, pre_roll := 5 / 4 }

/-- Concrete one-slot configuration for the C6 witness. -/
def cfgD : AudioConfig := { queue_size := 1 }

/-- Concrete state with a full one-slot queue for the C6 witness. -/
def sD : ReceiverState :=
  { pre_roll_buffer := [], recording := true, audio_frames := [[7]],
    silence_counter := 0, recording_duration := 0, audio_queue := [[5]],
    loop_set := true, dropped_count := 0 }

/-- The drain loop suspended in `await self.audio_queue.get()` on an empty
queue, with the terminate flag already set. -/
def blocked_after_shutdown : DrainState :=
  { phase := .waiting, queue := [], terminated := true, processed := [] }

/-! Basic lemmas about the embedded operations. -/

theorem sumOfSquares_nonneg (f : Frame) : 0 ≤ sumOfSquares f := by
  refine List.sum_nonneg ?_
  intro x hx
  rcases List.mem_map.mp hx with ⟨s, _, rfl⟩
  exact mul_self_nonneg s

theorem meanSquare_nonneg (f : Frame) : 0 ≤ meanSquare f :=
  div_nonneg (sumOfSquares_nonneg f) (by positivity)

/-- Justification of the square-root-free encoding: `rms_exceeds f t` is the
comparison `t < sqrt (mean of squares)` over the reals. -/
theorem rms_exceeds_sqrt_spec (f : Frame) (t : ℚ) :
    rms_exceeds f t = true ↔ (t : ℝ) < Real.sqrt (meanSquare f) := by
  have hm : (0 : ℝ) ≤ ((meanSquare f : ℚ) : ℝ) := by
    exact_mod_cast meanSquare_nonneg f
  unfold rms_exceeds
  simp only [Bool.or_eq_true, decide_eq_true_eq]
  constructor
  · rintro (ht | ht)
    · calc (t : ℝ) < 0 := by exact_mod_cast ht
        _ ≤ Real.sqrt (meanSquare f) := Real.sqrt_nonneg _
    · rcases lt_or_le t 0 with h0 | h0
      · calc (t : ℝ) < 0 := by exact_mod_cast h0
          _ ≤ Real.sqrt (meanSquare f) := Real.sqrt_nonneg _
      · have h0r : (0 : ℝ) ≤ (t : ℝ) := by exact_mod_cast h0
        refine (Real.lt_sqrt h0r).mpr ?_
        have : ((t * t : ℚ) : ℝ) < ((meanSquare f : ℚ) : ℝ) := by exact_mod_cast ht
        calc (t : ℝ) ^ 2 = ((t * t : ℚ) : ℝ) := by push_cast; ring
          _ < _ := this
  · intro h
    rcases lt_or_le t 0 with h0 | h0
    · exact Or.inl h0
    · refine Or.inr ?_
      have h0r : (0 : ℝ) ≤ (t : ℝ) := by exact_mod_cast h0
      have := (Real.lt_sqrt h0r).mp h
      have : ((t * t : ℚ) : ℝ) < ((meanSquare f : ℚ) : ℝ) := by
        calc ((t * t : ℚ) : ℝ) = (t : ℝ) ^ 2 := by push_cast; ring
          _ < _ := this
      exact_mod_cast this

@[simp] theorem update_pre_roll_recording (cfg : AudioConfig)
    (s : ReceiverState) (f : Frame) :
    (update_pre_roll cfg s f).recording = s.recording := rfl

@[simp] theorem update_pre_roll_audio_frames (cfg : AudioConfig)
    (s : ReceiverState) (f : Frame) :
    (update_pre_roll cfg s f).audio_frames = s.audio_frames := rfl

@[simp] theorem update_pre_roll_silence_counter (cfg : AudioConfig)
    (s : ReceiverState) (f : Frame) :
    (update_pre_roll cfg s f).silence_counter = s.silence_counter := rfl

@[simp] theorem update_pre_roll_recording_duration (cfg : AudioConfig)
    (s : ReceiverState) (f : Frame) :
    (update_pre_roll cfg s f).recording_duration = s.recording_duration := rfl

@[simp] theorem update_pre_roll_audio_queue (cfg : AudioConfig)
    (s : ReceiverState) (f : Frame) :
    (update_pre_roll cfg s f).audio_queue = s.audio_queue := rfl

@[simp] theorem update_pre_roll_loop_set (cfg : AudioConfig)
    (s : ReceiverState) (f : Frame) :
    (update_pre_roll cfg s f).loop_set = s.loop_set := rfl

@[simp] theorem update_pre_roll_dropped_count (cfg : AudioConfig)
    (s : ReceiverState) (f : Frame) :
    (update_pre_roll cfg s f).dropped_count = s.dropped_count := rfl

/-- In the recording state the callback reduces to the pre-roll update
followed by `_handle_recording` (the start branch is skipped). -/
theorem audio_callback_of_recording (cfg : AudioConfig) (s : ReceiverState)
    (f : Frame) (hrec : s.recording = true) :
    audio_callback cfg s f = handle_recording cfg (update_pre_roll cfg s f) f := by
  unfold audio_callback
  simp [hrec]

/-- In the idle state, a frame whose rms exceeds the threshold starts a
recording and is then handled in the same callback invocation. -/
theorem audio_callback_of_idle_loud (cfg : AudioConfig) (s : ReceiverState)
    (f : Frame) (hidle : s.recording = false)
    (hloud : rms_exceeds f cfg.audio_threshold = true) :
    audio_callback cfg s f =
      handle_recording cfg (start_recording (update_pre_roll cfg s f)) f := by
  unfold audio_callback
  simp [hidle, hloud, start_recording]

/-- In the idle state, a frame whose rms does not exceed the threshold only
updates the pre-roll buffer. -/
theorem audio_callback_of_idle_quiet (cfg : AudioConfig) (s : ReceiverState)
    (f : Frame) (hidle : s.recording = false)
    (hquiet : rms_exceeds f cfg.audio_threshold = false) :
    audio_callback cfg s f = update_pre_roll cfg s f := by
  unfold audio_callback
  simp [hidle, hquiet]

theorem should_stop_recording_iff (cfg : AudioConfig) (s : ReceiverState) :
    should_stop_recording cfg s = true ↔
      ((cfg.silence_threshold ≤ s.silence_counter ∨
        cfg.max_duration ≤ s.recording_duration) ∧
       cfg.min_duration ≤ s.recording_duration) := by
  unfold should_stop_recording
  simp

theorem run_frames_append (cfg : AudioConfig) (s : ReceiverState)
    (l1 l2 : List Frame) :
    run_frames cfg s (l1 ++ l2) = run_frames cfg (run_frames cfg s l1) l2 :=
  List.foldl_append _ _ _ _

/-- An empty queue is never full (for positive `queue_size` it holds fewer
than `queue_size` items; for `queue_size = 0` the queue is unbounded). -/
theorem queue_full_nil (cfg : AudioConfig) : queue_full cfg [] = false := by
  unfold queue_full
  simp only [List.length_nil, Bool.and_eq_false_iff, decide_eq_false_iff_not]
  omega

@[simp] theorem stop_recording_recording (cfg : AudioConfig)
    (s : ReceiverState) : (stop_recording cfg s).recording = false := by
  unfold stop_recording
  by_cases h : (s.loop_set && !queue_full cfg s.audio_queue) = true <;> simp [h]

@[simp] theorem stop_recording_audio_frames (cfg : AudioConfig)
    (s : ReceiverState) : (stop_recording cfg s).audio_frames = [] := rfl

theorem stop_recording_audio_queue_of (cfg : AudioConfig) (s : ReceiverState)
    (hloop : s.loop_set = true) (hfull : queue_full cfg s.audio_queue = false) :
    (stop_recording cfg s).audio_queue =
      s.audio_queue ++ [s.audio_frames.flatten] ∧
    (stop_recording cfg s).dropped_count = s.dropped_count := by
  unfold stop_recording
  simp [hloop, hfull]

theorem stop_recording_dropped_of (cfg : AudioConfig) (s : ReceiverState)
    (h : (s.loop_set && !queue_full cfg s.audio_queue) = false) :
    (stop_recording cfg s).audio_queue = s.audio_queue ∧
    (stop_recording cfg s).dropped_count = s.dropped_count + 1 := by
  unfold stop_recording
  simp [h]

@[simp] theorem after_counters_recording (cfg : AudioConfig)
    (s : ReceiverState) (f : Frame) :
    (after_counters cfg s f).recording = s.recording := rfl

@[simp] theorem after_counters_audio_frames (cfg : AudioConfig)
    (s : ReceiverState) (f : Frame) :
    (after_counters cfg s f).audio_frames = s.audio_frames ++ [f] := rfl

@[simp] theorem after_counters_audio_queue (cfg : AudioConfig)
    (s : ReceiverState) (f : Frame) :
    (after_counters cfg s f).audio_queue = s.audio_queue := rfl

@[simp] theorem after_counters_loop_set (cfg : AudioConfig)
    (s : ReceiverState) (f : Frame) :
    (after_counters cfg s f).loop_set = s.loop_set := rfl

@[simp] theorem after_counters_pre_roll_buffer (cfg : AudioConfig)
    (s : ReceiverState) (f : Frame) :
    (after_counters cfg s f).pre_roll_buffer = s.pre_roll_buffer := rfl

@[simp] theorem after_counters_dropped_count (cfg : AudioConfig)
    (s : ReceiverState) (f : Frame) :
    (after_counters cfg s f).dropped_count = s.dropped_count := rfl

theorem after_counters_recording_duration (cfg : AudioConfig)
    (s : ReceiverState) (f : Frame) :
    (after_counters cfg s f).recording_duration = s.recording_duration +
      (f.length : ℚ) / (cfg.sample_rate : ℚ) := rfl

theorem after_counters_silence_counter (cfg : AudioConfig)
    (s : ReceiverState) (f : Frame) :
    (after_counters cfg s f).silence_counter =
      if rms_exceeds f cfg.audio_threshold then 0
      else s.silence_counter + (f.length : ℚ) / (cfg.sample_rate : ℚ) := rfl

/-- Restatement of `_handle_recording` through the intermediate state. -/
theorem handle_recording_spec (cfg : AudioConfig) (s : ReceiverState)
    (f : Frame) :
    handle_recording cfg s f =
      if should_stop_recording cfg (after_counters cfg s f) then
        stop_recording cfg (after_counters cfg s f)
      else after_counters cfg s f := by
  unfold handle_recording after_counters
  cases hl : rms_exceeds f cfg.audio_threshold <;> simp [hl]

/-- C1: for every frame processed while recording, the callback leaves the
recording state exactly when the updated accumulated duration has reached
`min_duration` and (the updated consecutive-silence duration has reached
`silence_threshold` or the accumulated duration has reached `max_duration`);
on that transition the utterance frames are concatenated into one contiguous
sample sequence and appended to the hand-off queue (here: the drain loop is
running and the queue has room), the internal utterance buffer is cleared, and
the state is idle again; when the condition fails, the recording continues
with the frame appended and the queue untouched. -/
theorem C1_segment_completion (cfg : AudioConfig) (s : ReceiverState)
    (f : Frame) (hrec : s.recording = true) (hloop : s.loop_set = true)
    (hfull : queue_full cfg s.audio_queue = false) :
    ((audio_callback cfg s f).recording = false ↔
      (cfg.min_duration ≤
          s.recording_duration + (f.length : ℚ) / (cfg.sample_rate : ℚ) ∧
        (cfg.silence_threshold ≤
            (if rms_exceeds f cfg.audio_threshold then 0
             else s.silence_counter + (f.length : ℚ) / (cfg.sample_rate : ℚ)) ∨
          cfg.max_duration ≤
            s.recording_duration + (f.length : ℚ) / (cfg.sample_rate : ℚ)))) ∧
    ((audio_callback cfg s f).recording = false →
      (audio_callback cfg s f).audio_queue =
          s.audio_queue ++ [(s.audio_frames ++ [f]).flatten] ∧
      (audio_callback cfg s f).audio_frames = []) ∧
    ((audio_callback cfg s f).recording = true →
      (audio_callback cfg s f).audio_queue = s.audio_queue ∧
      (audio_callback cfg s f).audio_frames = s.audio_frames ++ [f]) := by
  rw [audio_callback_of_recording cfg s f hrec, handle_recording_spec]
  set u := update_pre_roll cfg s f with hu
  have hcond : should_stop_recording cfg (after_counters cfg u f) = true ↔
      ((cfg.silence_threshold ≤
          (if rms_exceeds f cfg.audio_threshold then 0
           else s.silence_counter + (f.length : ℚ) / (cfg.sample_rate : ℚ)) ∨
        cfg.max_duration ≤
          s.recording_duration + (f.length : ℚ) / (cfg.sample_rate : ℚ)) ∧
       cfg.min_duration ≤
         s.recording_duration + (f.length : ℚ) / (cfg.sample_rate : ℚ)) := by
    rw [should_stop_recording_iff, after_counters_silence_counter,
      after_counters_recording_duration, hu, update_pre_roll_silence_counter,
      update_pre_roll_recording_duration]
  by_cases hstop :
      ((cfg.silence_threshold ≤
          (if rms_exceeds f cfg.audio_threshold then 0
           else s.silence_counter + (f.length : ℚ) / (cfg.sample_rate : ℚ)) ∨
        cfg.max_duration ≤
          s.recording_duration + (f.length : ℚ) / (cfg.sample_rate : ℚ)) ∧
       cfg.min_duration ≤
         s.recording_duration + (f.length : ℚ) / (cfg.sample_rate : ℚ))
  · rw [if_pos (hcond.mpr hstop)]
    have hq := stop_recording_audio_queue_of cfg (after_counters cfg u f)
      (by rw [after_counters_loop_set, hu, update_pre_roll_loop_set]; exact hloop)
      (by rw [after_counters_audio_queue, hu, update_pre_roll_audio_queue]
          exact hfull)
    refine ⟨?_, ?_, ?_⟩
    · simp only [stop_recording_recording, true_iff]
      exact ⟨hstop.2, hstop.1⟩
    · intro _
      refine ⟨?_, stop_recording_audio_frames cfg _⟩
      rw [hq.1, after_counters_audio_queue, after_counters_audio_frames, hu,
        update_pre_roll_audio_queue, update_pre_roll_audio_frames]
    · intro hcontra
      rw [stop_recording_recording] at hcontra
      exact absurd hcontra (by simp)
  · rw [if_neg (fun hb => hstop (hcond.mp hb))]
    refine ⟨?_, ?_, ?_⟩
    · rw [after_counters_recording, hu, update_pre_roll_recording, hrec]
      constructor
      · intro h
        exact absurd h (by simp)
      · intro h
        exact absurd ⟨h.2, h.1⟩ hstop
    · intro h
      rw [after_counters_recording, hu, update_pre_roll_recording, hrec] at h
      exact absurd h (by simp)
    · intro _
      rw [after_counters_audio_queue, after_counters_audio_frames, hu,
        update_pre_roll_audio_queue, update_pre_roll_audio_frames]
      exact ⟨rfl, rfl⟩

/-- Witness for C1: in `cfgA`, from a recording state with 5 s accumulated and
3 s of silence, one more silent frame completes the segment and the
concatenation [1, 0] is enqueued. -/
theorem C1_segment_completion_witness :
    sA.recording = true ∧ sA.loop_set = true ∧
    queue_full cfgA sA.audio_queue = false ∧
    (audio_callback cfgA sA [0]).recording = false ∧
    (audio_callback cfgA sA [0]).audio_queue = [[1, 0]] := by
  have h := C1_segment_completion cfgA sA [0] rfl rfl rfl
  have hstop := h.1.mpr (by
    norm_num [cfgA, sA, rms_exceeds, meanSquare, sumOfSquares])
  refine ⟨rfl, rfl, rfl, hstop, ?_⟩
  have hq := (h.2.1 hstop).1
  simpa [sA] using hq

@[simp] theorem start_recording_recording (s : ReceiverState) :
    (start_recording s).recording = true := rfl

@[simp] theorem start_recording_audio_frames (s : ReceiverState) :
    (start_recording s).audio_frames = s.pre_roll_buffer := rfl

@[simp] theorem start_recording_silence_counter (s : ReceiverState) :
    (start_recording s).silence_counter = 0 := rfl

@[simp] theorem start_recording_recording_duration (s : ReceiverState) :
    (start_recording s).recording_duration = 0 := rfl

@[simp] theorem start_recording_audio_queue (s : ReceiverState) :
    (start_recording s).audio_queue = s.audio_queue := rfl

@[simp] theorem start_recording_loop_set (s : ReceiverState) :
    (start_recording s).loop_set = s.loop_set := rfl

@[simp] theorem start_recording_pre_roll_buffer (s : ReceiverState) :
    (start_recording s).pre_roll_buffer = s.pre_roll_buffer := rfl

theorem stop_recording_loop_set (cfg : AudioConfig) (s : ReceiverState) :
    (stop_recording cfg s).loop_set = s.loop_set := by
  unfold stop_recording
  by_cases h : (s.loop_set && !queue_full cfg s.audio_queue) = true <;> simp [h]

theorem stop_recording_pre_roll_buffer (cfg : AudioConfig)
    (s : ReceiverState) :
    (stop_recording cfg s).pre_roll_buffer = s.pre_roll_buffer := by
  unfold stop_recording
  by_cases h : (s.loop_set && !queue_full cfg s.audio_queue) = true <;> simp [h]

/-- The stop condition after a frame has been absorbed, in terms of the
pre-frame counters. -/
theorem should_stop_after_iff (cfg : AudioConfig) (s : ReceiverState)
    (f : Frame) :
    should_stop_recording cfg
        (after_counters cfg (update_pre_roll cfg s f) f) = true ↔
      ((cfg.silence_threshold ≤
          (if rms_exceeds f cfg.audio_threshold then 0
           else s.silence_counter + (f.length : ℚ) / (cfg.sample_rate : ℚ)) ∨
        cfg.max_duration ≤
          s.recording_duration + (f.length : ℚ) / (cfg.sample_rate : ℚ)) ∧
       cfg.min_duration ≤
         s.recording_duration + (f.length : ℚ) / (cfg.sample_rate : ℚ)) := by
  rw [should_stop_recording_iff, after_counters_silence_counter,
    after_counters_recording_duration, update_pre_roll_silence_counter,
    update_pre_roll_recording_duration]

/-- Continuing step: a frame processed while recording that does not meet the
stop condition leaves the detector recording with updated counters. -/
theorem recording_step_continue (cfg : AudioConfig) (s : ReceiverState)
    (f : Frame) (hrec : s.recording = true)
    (hnostop : ¬ ((cfg.silence_threshold ≤
          (if rms_exceeds f cfg.audio_threshold then 0
           else s.silence_counter + (f.length : ℚ) / (cfg.sample_rate : ℚ)) ∨
        cfg.max_duration ≤
          s.recording_duration + (f.length : ℚ) / (cfg.sample_rate : ℚ)) ∧
       cfg.min_duration ≤
         s.recording_duration + (f.length : ℚ) / (cfg.sample_rate : ℚ))) :
    (audio_callback cfg s f).recording = true ∧
    (audio_callback cfg s f).silence_counter =
      (if rms_exceeds f cfg.audio_threshold then 0
       else s.silence_counter + (f.length : ℚ) / (cfg.sample_rate : ℚ)) ∧
    (audio_callback cfg s f).recording_duration =
      s.recording_duration + (f.length : ℚ) / (cfg.sample_rate : ℚ) ∧
    (audio_callback cfg s f).audio_queue = s.audio_queue ∧
    (audio_callback cfg s f).loop_set = s.loop_set ∧
    (audio_callback cfg s f).audio_frames = s.audio_frames ++ [f] := by
  rw [audio_callback_of_recording cfg s f hrec, handle_recording_spec]
  rw [if_neg (fun hb => hnostop ((should_stop_after_iff cfg s f).mp hb))]
  refine ⟨?_, ?_, ?_, ?_, ?_, ?_⟩
  · rw [after_counters_recording, update_pre_roll_recording, hrec]
  · rw [after_counters_silence_counter, update_pre_roll_silence_counter]
  · rw [after_counters_recording_duration, update_pre_roll_recording_duration]
  · rw [after_counters_audio_queue, update_pre_roll_audio_queue]
  · rw [after_counters_loop_set, update_pre_roll_loop_set]
  · rw [after_counters_audio_frames, update_pre_roll_audio_frames]

/-- Stopping step: a frame processed while recording that meets the stop
condition finalizes the segment; with the loop set and the queue not full the
concatenated utterance is enqueued. -/
theorem recording_step_stop (cfg : AudioConfig) (s : ReceiverState)
    (f : Frame) (hrec : s.recording = true) (hloop : s.loop_set = true)
    (hfull : queue_full cfg s.audio_queue = false)
    (hstop : ((cfg.silence_threshold ≤
          (if rms_exceeds f cfg.audio_threshold then 0
           else s.silence_counter + (f.length : ℚ) / (cfg.sample_rate : ℚ)) ∨
        cfg.max_duration ≤
          s.recording_duration + (f.length : ℚ) / (cfg.sample_rate : ℚ)) ∧
       cfg.min_duration ≤
         s.recording_duration + (f.length : ℚ) / (cfg.sample_rate : ℚ))) :
    (audio_callback cfg s f).recording = false ∧
    (audio_callback cfg s f).audio_queue =
      s.audio_queue ++ [(s.audio_frames ++ [f]).flatten] ∧
    (audio_callback cfg s f).audio_frames = [] ∧
    (audio_callback cfg s f).loop_set = s.loop_set := by
  rw [audio_callback_of_recording cfg s f hrec, handle_recording_spec]
  rw [if_pos ((should_stop_after_iff cfg s f).mpr hstop)]
  have hq := stop_recording_audio_queue_of cfg
    (after_counters cfg (update_pre_roll cfg s f) f)
    (by rw [after_counters_loop_set, update_pre_roll_loop_set]; exact hloop)
    (by rw [after_counters_audio_queue, update_pre_roll_audio_queue]
        exact hfull)
  refine ⟨stop_recording_recording cfg _, ?_, stop_recording_audio_frames cfg _, ?_⟩
  · rw [hq.1, after_counters_audio_queue, after_counters_audio_frames,
      update_pre_roll_audio_queue, update_pre_roll_audio_frames]
  · rw [stop_recording_loop_set, after_counters_loop_set,
      update_pre_roll_loop_set]

/-- Start step: a loud frame in the idle state begins a recording seeded from
the post-append pre-roll buffer and absorbs the frame itself; when one frame
cannot yet meet the stop condition the recording continues. -/
theorem idle_loud_step_fields (cfg : AudioConfig) (s : ReceiverState)
    (f : Frame) (hidle : s.recording = false)
    (hloud : rms_exceeds f cfg.audio_threshold = true)
    (hnostop : ¬ ((cfg.silence_threshold ≤ 0 ∨
        cfg.max_duration ≤ (f.length : ℚ) / (cfg.sample_rate : ℚ)) ∧
       cfg.min_duration ≤ (f.length : ℚ) / (cfg.sample_rate : ℚ))) :
    (audio_callback cfg s f).recording = true ∧
    (audio_callback cfg s f).silence_counter = 0 ∧
    (audio_callback cfg s f).recording_duration =
      (f.length : ℚ) / (cfg.sample_rate : ℚ) ∧
    (audio_callback cfg s f).audio_queue = s.audio_queue ∧
    (audio_callback cfg s f).loop_set = s.loop_set ∧
    (audio_callback cfg s f).audio_frames =
      (update_pre_roll cfg s f).pre_roll_buffer ++ [f] := by
  rw [audio_callback_of_idle_loud cfg s f hidle hloud, handle_recording_spec]
  have hsil : (after_counters cfg
      (start_recording (update_pre_roll cfg s f)) f).silence_counter = 0 := by
    rw [after_counters_silence_counter, if_pos hloud]
  have hdur : (after_counters cfg
      (start_recording (update_pre_roll cfg s f)) f).recording_duration =
      (f.length : ℚ) / (cfg.sample_rate : ℚ) := by
    rw [after_counters_recording_duration, start_recording_recording_duration,
      zero_add]
  have hb : ¬ (should_stop_recording cfg
      (after_counters cfg (start_recording (update_pre_roll cfg s f)) f)
        = true) := by
    rw [should_stop_recording_iff, hsil, hdur]
    exact hnostop
  rw [if_neg hb]
  refine ⟨?_, hsil, hdur, ?_, ?_, ?_⟩
  · rw [after_counters_recording, start_recording_recording]
  · rw [after_counters_audio_queue, start_recording_audio_queue,
      update_pre_roll_audio_queue]
  · rw [after_counters_loop_set, start_recording_loop_set,
      update_pre_roll_loop_set]
  · rw [after_counters_audio_frames, start_recording_audio_frames]

theorem run_frames_singleton (cfg : AudioConfig) (s : ReceiverState)
    (f : Frame) : run_frames cfg s [f] = audio_callback cfg s f := rfl

/-- Invariant of an all-loud run from the started state, as long as the stop
condition has not been reached at any absorbed frame: the detector is
recording with zero silence and duration `i` frames, and nothing was
emitted. -/
theorem loud_run_invariant (cfg : AudioConfig) (L : Frame)
    (hloud : rms_exceeds L cfg.audio_threshold = true)
    (i : ℕ) (hi : 1 ≤ i)
    (hnostop : ∀ j : ℕ, 1 ≤ j → j ≤ i →
      ¬ ((cfg.silence_threshold ≤ 0 ∨
          cfg.max_duration ≤
            (j : ℚ) * ((L.length : ℚ) / (cfg.sample_rate : ℚ))) ∧
         cfg.min_duration ≤
           (j : ℚ) * ((L.length : ℚ) / (cfg.sample_rate : ℚ)))) :
    (run_frames cfg started_state (List.replicate i L)).recording = true ∧
    (run_frames cfg started_state (List.replicate i L)).silence_counter = 0 ∧
    (run_frames cfg started_state (List.replicate i L)).recording_duration =
      (i : ℚ) * ((L.length : ℚ) / (cfg.sample_rate : ℚ)) ∧
    (run_frames cfg started_state (List.replicate i L)).audio_queue = [] ∧
    (run_frames cfg started_state (List.replicate i L)).loop_set = true := by
  set fd : ℚ := (L.length : ℚ) / (cfg.sample_rate : ℚ) with hfd
  induction i with
  | zero => exact absurd hi (by omega)
  | succ n ih =>
    rcases Nat.eq_zero_or_pos n with hn | hn
    · subst hn
      have hstep := idle_loud_step_fields cfg started_state L rfl hloud
        (by
          have := hnostop 1 (by omega) (by omega)
          simpa using this)
      have e : run_frames cfg started_state (List.replicate 1 L) =
          audio_callback cfg started_state L := rfl
      rw [e]
      refine ⟨hstep.1, hstep.2.1, ?_, hstep.2.2.2.1, hstep.2.2.2.2.1⟩
      rw [hstep.2.2.1]
      push_cast
      ring
    · have ih' := ih hn (fun j h1 h2 => hnostop j h1 (by omega))
      rw [show List.replicate (n + 1) L = List.replicate n L ++ [L] from
        List.replicate_succ' n L, run_frames_append, run_frames_singleton]
      set t := run_frames cfg started_state (List.replicate n L)
      have hstep := recording_step_continue cfg t L ih'.1
        (by
          rw [if_pos hloud, ih'.2.2.1]
          have h1 : (n : ℚ) * fd + fd = ((n : ℚ) + 1) * fd := by ring
          rw [h1]
          have := hnostop (n + 1) (by omega) (by omega)
          push_cast at this ⊢
          exact this)
      refine ⟨hstep.1, ?_, ?_, ?_, ?_⟩
      · rw [hstep.2.1, if_pos hloud]
      · rw [hstep.2.2.1, ih'.2.2.1]
        push_cast
        ring
      · rw [hstep.2.2.2.1, ih'.2.2.2.1]
      · rw [hstep.2.2.2.2.1, ih'.2.2.2.2]

/-- Invariant of an all-silent run from a freshly loud recording state: either
the stop condition has not yet been met (the detector is still recording,
with the silence counter equal to the silent span) or it has stopped and
exactly one utterance sits in the queue. -/
theorem silent_run_cases (cfg : AudioConfig) (S : Frame)
    (hquiet : rms_exceeds S cfg.audio_threshold = false)
    (m : ℕ) (s : ReceiverState) (hrec : s.recording = true)
    (hloop : s.loop_set = true) (hq : s.audio_queue = [])
    (hsil0 : s.silence_counter = 0)
    (h0 : ¬ ((cfg.silence_threshold ≤ 0 ∨
        cfg.max_duration ≤ s.recording_duration) ∧
       cfg.min_duration ≤ s.recording_duration)) :
    ((run_frames cfg s (List.replicate m S)).recording = true ∧
     (run_frames cfg s (List.replicate m S)).loop_set = true ∧
     (run_frames cfg s (List.replicate m S)).audio_queue = [] ∧
     (run_frames cfg s (List.replicate m S)).recording_duration =
       s.recording_duration +
         (m : ℚ) * ((S.length : ℚ) / (cfg.sample_rate : ℚ)) ∧
     (run_frames cfg s (List.replicate m S)).silence_counter =
       (m : ℚ) * ((S.length : ℚ) / (cfg.sample_rate : ℚ)) ∧
     ¬ ((cfg.silence_threshold ≤
           (m : ℚ) * ((S.length : ℚ) / (cfg.sample_rate : ℚ)) ∨
         cfg.max_duration ≤ s.recording_duration +
           (m : ℚ) * ((S.length : ℚ) / (cfg.sample_rate : ℚ))) ∧
        cfg.min_duration ≤ s.recording_duration +
          (m : ℚ) * ((S.length : ℚ) / (cfg.sample_rate : ℚ)))) ∨
    ((run_frames cfg s (List.replicate m S)).recording = false ∧
     (run_frames cfg s (List.replicate m S)).loop_set = true ∧
     (run_frames cfg s (List.replicate m S)).audio_queue.length = 1) := by
  set fd : ℚ := (S.length : ℚ) / (cfg.sample_rate : ℚ) with hfd
  induction m with
  | zero =>
    left
    have e : run_frames cfg s (List.replicate 0 S) = s := rfl
    rw [e]
    refine ⟨hrec, hloop, hq, by push_cast; ring,
      by rw [hsil0]; push_cast; ring, ?_⟩
    intro hcon
    apply h0
    push_cast at hcon
    simpa using hcon
  | succ n ih =>
    rw [show List.replicate (n + 1) S = List.replicate n S ++ [S] from
      List.replicate_succ' n S, run_frames_append, run_frames_singleton]
    rcases ih with ⟨hrec', hloop', hq', hdur', hsil', hnstop'⟩ | hdone
    · set t := run_frames cfg s (List.replicate n S)
      by_cases hstop :
          ((cfg.silence_threshold ≤ ((n : ℚ) + 1) * fd ∨
            cfg.max_duration ≤ s.recording_duration + ((n : ℚ) + 1) * fd) ∧
           cfg.min_duration ≤ s.recording_duration + ((n : ℚ) + 1) * fd)
      · right
        have hstep := recording_step_stop cfg t S hrec' hloop'
          (by rw [hq']; exact queue_full_nil cfg)
          (by
            rw [if_neg (by simp [hquiet]), hsil', hdur']
            constructor
            · rcases hstop.1 with h | h
              · exact Or.inl (by linarith [h])
              · exact Or.inr (by linarith [h])
            · linarith [hstop.2])
        refine ⟨hstep.1, ?_, ?_⟩
        · rw [hstep.2.2.2, hloop']
        · rw [hstep.2.1, hq']
          simp
      · left
        have hstep := recording_step_continue cfg t S hrec'
          (by
            rw [if_neg (by simp [hquiet]), hsil', hdur']
            intro hcon
            refine hstop ⟨?_, by linarith [hcon.2]⟩
            rcases hcon.1 with h | h
            · exact Or.inl (by linarith)
            · exact Or.inr (by linarith))
        refine ⟨hstep.1, ?_, ?_, ?_, ?_, ?_⟩
        · rw [hstep.2.2.2.2.1, hloop']
        · rw [hstep.2.2.2.1, hq']
        · rw [hstep.2.2.1, hdur']
          push_cast
          ring
        · rw [hstep.2.1, if_neg (by simp [hquiet]), hsil']
          push_cast
          ring
        · intro hcon
          refine hstop ⟨?_, ?_⟩
          · rcases hcon.1 with h | h
            · exact Or.inl (by push_cast at h; linarith)
            · exact Or.inr (by push_cast at h; linarith)
          · have := hcon.2
            push_cast at this
            linarith
    · right
      set t := run_frames cfg s (List.replicate n S)
      rw [audio_callback_of_idle_quiet cfg t S hdone.1 hquiet]
      exact ⟨by rw [update_pre_roll_recording]; exact hdone.1,
        by rw [update_pre_roll_loop_set]; exact hdone.2.1,
        by rw [update_pre_roll_audio_queue]; exact hdone.2.2⟩

/-- C2 counterexample: in `cfgA` (min_duration 5 s, silence_threshold 3 s,
frame duration 1 s), a single above-threshold frame (1 s < min_duration)
followed by four below-threshold frames DOES emit an utterance: the
accumulated recording duration keeps growing during the silence, so at the
fifth frame both `recording_duration >= min_duration` (5 >= 5) and
`silence_counter >= silence_threshold` (4 >= 3) hold and the segment is
finalized and enqueued, refuting the claim that no utterance is ever
emitted. -/
theorem C2_short_burst_counterexample :
    (1 : ℚ) * ((1 : ℚ) / (cfgA.sample_rate : ℚ)) < cfgA.min_duration ∧
    (run_frames cfgA started_state
        [[1], [0], [0], [0], [0]]).audio_queue.length = 1 := by
  constructor
  · norm_num [cfgA]
  · norm_num [run_frames, List.foldl, audio_callback, update_pre_roll,
      pre_roll_frames, pyTrunc, rms_exceeds, meanSquare, sumOfSquares,
      start_recording, handle_recording, should_stop_recording,
      stop_recording, queue_full, started_state, initial_state, cfgA]

/-- C2 amended: if the above-threshold span of `k` frames is shorter than
`min_duration` and is followed by `m` below-threshold frames, an utterance IS
emitted as soon as the total accumulated duration (loud and silent frames
together) reaches `min_duration` while the consecutive silence reaches
`silence_threshold` — the `min_duration` floor is counted over the whole
recording, silence included, not over the above-threshold span. -/
theorem C2_min_duration_floor_amended (cfg : AudioConfig) (L S : Frame)
    (hloud : rms_exceeds L cfg.audio_threshold = true)
    (hquiet : rms_exceeds S cfg.audio_threshold = false)
    (hlen : S.length = L.length)
    (k m : ℕ) (hk : 1 ≤ k)
    (hshort : (k : ℚ) * ((L.length : ℚ) / (cfg.sample_rate : ℚ)) <
      cfg.min_duration)
    (hmin : cfg.min_duration ≤
      ((k : ℚ) + (m : ℚ)) * ((L.length : ℚ) / (cfg.sample_rate : ℚ)))
    (hsil : cfg.silence_threshold ≤
      (m : ℚ) * ((L.length : ℚ) / (cfg.sample_rate : ℚ))) :
    (run_frames cfg started_state
        (List.replicate k L ++ List.replicate m S)).audio_queue.length = 1 := by
  set fd : ℚ := (L.length : ℚ) / (cfg.sample_rate : ℚ) with hfddef
  have hfd0 : 0 ≤ fd := div_nonneg (Nat.cast_nonneg _) (Nat.cast_nonneg _)
  have hfdeq : (S.length : ℚ) / (cfg.sample_rate : ℚ) = fd := by
    rw [hfddef, hlen]
  have hloudrun := loud_run_invariant cfg L hloud k hk (by
    intro j h1 h2 hcon
    have hj : (j : ℚ) * fd ≤ (k : ℚ) * fd := by
      have : (j : ℚ) ≤ (k : ℚ) := by exact_mod_cast h2
      exact mul_le_mul_of_nonneg_right this hfd0
    linarith [hcon.2])
  rw [run_frames_append]
  set t := run_frames cfg started_state (List.replicate k L) with ht
  have hsilcases := silent_run_cases cfg S hquiet m t hloudrun.1
    hloudrun.2.2.2.2 hloudrun.2.2.2.1 hloudrun.2.1 (by
      intro hcon
      rw [hloudrun.2.2.1] at hcon
      linarith [hcon.2])
  rcases hsilcases with hleft | hright
  · exfalso
    apply hleft.2.2.2.2.2
    rw [hfdeq, hloudrun.2.2.1]
    refine ⟨Or.inl hsil, ?_⟩
    have : (k : ℚ) * fd + (m : ℚ) * fd = ((k : ℚ) + (m : ℚ)) * fd := by ring
    linarith [hmin]
  · exact hright.2.2

/-- Witness for the amended C2: in `cfgA`, one loud frame then four silent
frames meet all the side conditions and produce exactly one utterance. -/
theorem C2_min_duration_floor_amended_witness :
    rms_exceeds [1] cfgA.audio_threshold = true ∧
    rms_exceeds [0] cfgA.audio_threshold = false ∧
    (1 : ℚ) * ((([1] : Frame).length : ℚ) / (cfgA.sample_rate : ℚ)) <
      cfgA.min_duration ∧
    (run_frames cfgA started_state
        (List.replicate 1 [1] ++ List.replicate 4 [0])).audio_queue.length
      = 1 := by
  have h1 : rms_exceeds [1] cfgA.audio_threshold = true := by
    norm_num [rms_exceeds, meanSquare, sumOfSquares, cfgA]
  have h2 : rms_exceeds [0] cfgA.audio_threshold = false := by
    norm_num [rms_exceeds, meanSquare, sumOfSquares, cfgA]
  have h3 : ((1 : ℕ) : ℚ) * ((([1] : Frame).length : ℚ) /
      (cfgA.sample_rate : ℚ)) < cfgA.min_duration := by
    norm_num [cfgA]
  refine ⟨h1, h2, by simpa using h3, ?_⟩
  exact C2_min_duration_floor_amended cfgA [1] [0] h1 h2 rfl 1 4
    (le_refl 1) h3
    (by norm_num [cfgA]) (by norm_num [cfgA])

/-- C3: from the started idle state, if every frame stays above the
threshold, then (with a positive silence threshold, `min_duration ≤
max_duration`, and `max_duration` longer than one frame) the segment is
finalized and enqueued exactly at the first frame `n` whose accumulated
duration reaches `max_duration`; that duration overshoots `max_duration` by
less than one frame; and the very next above-threshold frame immediately
starts a new recording while the emitted utterance stays in the queue. -/
theorem C3_max_duration_cutoff (cfg : AudioConfig) (L : Frame) (n : ℕ)
    (hloud : rms_exceeds L cfg.audio_threshold = true)
    (hsilpos : 0 < cfg.silence_threshold)
    (hminmax : cfg.min_duration ≤ cfg.max_duration)
    (hfd : (L.length : ℚ) / (cfg.sample_rate : ℚ) < cfg.max_duration)
    (hn : 1 ≤ n)
    (hreach : cfg.max_duration ≤
      (n : ℚ) * ((L.length : ℚ) / (cfg.sample_rate : ℚ)))
    (hprev : ((n : ℚ) - 1) * ((L.length : ℚ) / (cfg.sample_rate : ℚ)) <
      cfg.max_duration) :
    ((run_frames cfg started_state (List.replicate n L)).recording = false ∧
     (run_frames cfg started_state
        (List.replicate n L)).audio_queue.length = 1) ∧
    ((n : ℚ) * ((L.length : ℚ) / (cfg.sample_rate : ℚ)) <
      cfg.max_duration + (L.length : ℚ) / (cfg.sample_rate : ℚ)) ∧
    ((run_frames cfg started_state
        (List.replicate (n + 1) L)).recording = true ∧
     (run_frames cfg started_state
        (List.replicate (n + 1) L)).audio_queue.length = 1) := by
  set fd : ℚ := (L.length : ℚ) / (cfg.sample_rate : ℚ) with hfddef
  have hfd0 : 0 ≤ fd := div_nonneg (Nat.cast_nonneg _) (Nat.cast_nonneg _)
  have hn2 : 2 ≤ n := by
    by_contra hcon
    have : n = 1 := by omega
    subst this
    push_cast at hreach
    linarith
  set p := n - 1 with hp
  have hpn : n = p + 1 := by omega
  have hpcast : (p : ℚ) = (n : ℚ) - 1 := by
    have : ((n - 1 : ℕ) : ℚ) = (n : ℚ) - 1 := by
      push_cast [Nat.cast_sub hn]
      ring
    rw [hp, this]
  have hloudrun := loud_run_invariant cfg L hloud p (by omega) (by
    intro j h1 h2 hcon
    rcases hcon.1 with h | h
    · linarith
    · have hj : (j : ℚ) * fd ≤ (p : ℚ) * fd := by
        have : (j : ℚ) ≤ (p : ℚ) := by exact_mod_cast h2
        exact mul_le_mul_of_nonneg_right this hfd0
      rw [hpcast] at hj
      linarith)
  have hrepl : List.replicate n L = List.replicate p L ++ [L] := by
    rw [hpn, List.replicate_succ' p L]
  set t := run_frames cfg started_state (List.replicate p L) with ht
  have hstop := recording_step_stop cfg t L hloudrun.1 hloudrun.2.2.2.2
    (by rw [hloudrun.2.2.2.1]; exact queue_full_nil cfg)
    (by
      rw [if_pos hloud, hloudrun.2.2.1, hpcast]
      have hsum : ((n : ℚ) - 1) * fd + fd = (n : ℚ) * fd := by ring
      rw [hsum]
      exact ⟨Or.inr hreach, le_trans hminmax hreach⟩)
  have hrun_n_rec : (run_frames cfg started_state
      (List.replicate n L)).recording = false := by
    rw [hrepl, run_frames_append, run_frames_singleton]
    exact hstop.1
  have hrun_n_queue : (run_frames cfg started_state
      (List.replicate n L)).audio_queue.length = 1 := by
    rw [hrepl, run_frames_append, run_frames_singleton, hstop.2.1,
      hloudrun.2.2.2.1]
    simp
  have hrun_n_loop : (run_frames cfg started_state
      (List.replicate n L)).loop_set = true := by
    rw [hrepl, run_frames_append, run_frames_singleton, hstop.2.2.2]
    exact hloudrun.2.2.2.2
  refine ⟨⟨hrun_n_rec, hrun_n_queue⟩, ?_, ?_⟩
  · have : (n : ℚ) * fd = ((n : ℚ) - 1) * fd + fd := by ring
    linarith
  · have hrestart := idle_loud_step_fields cfg
      (run_frames cfg started_state (List.replicate n L)) L hrun_n_rec hloud
      (by
        intro hcon
        rcases hcon.1 with h | h
        · linarith
        · exact absurd h (not_le.mpr hfd))
    have hrepl2 : List.replicate (n + 1) L = List.replicate n L ++ [L] :=
      List.replicate_succ' n L
    rw [hrepl2, run_frames_append, run_frames_singleton]
    refine ⟨hrestart.1, ?_⟩
    rw [hrestart.2.2.2.1]
    exact hrun_n_queue

/-- Witness for C3: in `cfgB`, three continuously loud one-second frames
finalize one utterance at the third frame and a fourth loud frame starts a
new recording with the utterance still queued. -/
theorem C3_max_duration_cutoff_witness :
    rms_exceeds [1] cfgB.audio_threshold = true ∧
    cfgB.max_duration ≤
      (3 : ℚ) * ((([1] : Frame).length : ℚ) / (cfgB.sample_rate : ℚ)) ∧
    (run_frames cfgB started_state (List.replicate 3 [1])).recording = false ∧
    (run_frames cfgB started_state
        (List.replicate 3 [1])).audio_queue.length = 1 ∧
    (run_frames cfgB started_state
        (List.replicate 4 [1])).recording = true := by
  have h1 : rms_exceeds [1] cfgB.audio_threshold = true := by
    norm_num [rms_exceeds, meanSquare, sumOfSquares, cfgB]
  have h := C3_max_duration_cutoff cfgB [1] 3 h1
    (by norm_num [cfgB]) (by norm_num [cfgB]) (by norm_num [cfgB])
    (by omega)
    (by push_cast; norm_num [cfgB])
    (by push_cast; norm_num [cfgB])
  refine ⟨h1, by norm_num [cfgB], h.1.1, h.1.2, ?_⟩
  have := h.2.2.1
  norm_num at this
  exact this

theorem handle_recording_pre_roll (cfg : AudioConfig) (s : ReceiverState)
    (f : Frame) :
    (handle_recording cfg s f).pre_roll_buffer = s.pre_roll_buffer := by
  rw [handle_recording_spec]
  by_cases h : should_stop_recording cfg (after_counters cfg s f) = true
  · rw [if_pos h, stop_recording_pre_roll_buffer, after_counters_pre_roll_buffer]
  · rw [if_neg h, after_counters_pre_roll_buffer]

/-- The callback's effect on the pre-roll buffer is exactly the pre-roll
update: the recording logic never touches it. -/
theorem audio_callback_pre_roll (cfg : AudioConfig) (s : ReceiverState)
    (f : Frame) :
    (audio_callback cfg s f).pre_roll_buffer =
      (update_pre_roll cfg s f).pre_roll_buffer := by
  cases hrec : s.recording
  · cases hl : rms_exceeds f cfg.audio_threshold
    · rw [audio_callback_of_idle_quiet cfg s f hrec hl]
    · rw [audio_callback_of_idle_loud cfg s f hrec hl,
        handle_recording_pre_roll, start_recording_pre_roll_buffer]
  · rw [audio_callback_of_recording cfg s f hrec, handle_recording_pre_roll]

/-- The pre-roll update keeps the buffer within the code's capacity bound. -/
theorem update_pre_roll_length_le (cfg : AudioConfig) (s : ReceiverState)
    (f : Frame)
    (h : s.pre_roll_buffer.length ≤ (pre_roll_frames cfg f.length).toNat) :
    (update_pre_roll cfg s f).pre_roll_buffer.length ≤
      (pre_roll_frames cfg f.length).toNat := by
  unfold update_pre_roll
  dsimp only
  by_cases hc : ((s.pre_roll_buffer ++ [f]).length : ℤ) >
      pre_roll_frames cfg f.length
  · rw [if_pos hc]
    rw [List.length_tail, List.length_append]
    simpa using h
  · rw [if_neg hc]
    rw [List.length_append] at hc ⊢
    simp only [List.length_singleton] at hc ⊢
    omega

/-- Invariant run for C4: along an all-quiet uniform-length frame sequence,
an idle state with an in-capacity pre-roll buffer stays idle with an
in-capacity pre-roll buffer. -/
theorem silent_idle_invariant (cfg : AudioConfig) (n : ℕ) :
    ∀ fs : List Frame,
      (∀ f ∈ fs, rms_exceeds f cfg.audio_threshold = false) →
      (∀ f ∈ fs, f.length = n) →
      ∀ s : ReceiverState, s.recording = false →
      s.pre_roll_buffer.length ≤ (pre_roll_frames cfg n).toNat →
      (run_frames cfg s fs).recording = false ∧
      (run_frames cfg s fs).pre_roll_buffer.length ≤
        (pre_roll_frames cfg n).toNat := by
  intro fs
  induction fs with
  | nil => exact fun _ _ s h1 h2 => ⟨h1, h2⟩
  | cons f rest ih =>
    intro hquiet hlen s h1 h2
    have hf : rms_exceeds f cfg.audio_threshold = false :=
      hquiet f (List.mem_cons_self f rest)
    have hfn : f.length = n := hlen f (List.mem_cons_self f rest)
    have e : run_frames cfg s (f :: rest) =
        run_frames cfg (audio_callback cfg s f) rest := rfl
    rw [e]
    refine ih (fun g hg => hquiet g (List.mem_cons_of_mem f hg))
      (fun g hg => hlen g (List.mem_cons_of_mem f hg))
      (audio_callback cfg s f) ?_ ?_
    · rw [audio_callback_of_idle_quiet cfg s f h1 hf,
        update_pre_roll_recording]
      exact h1
    · rw [audio_callback_pre_roll]
      rw [← hfn] at h2 ⊢
      exact update_pre_roll_length_le cfg s f h2

/-- C4: for a sequence of uniform-length frames all of whose rms values stay
at or below the threshold, the detector is still idle after every frame, and
after every frame the pre-roll buffer holds at most the configured capacity
`int(pre_roll * sample_rate / frame_len)` of frames. -/
theorem C4_quiet_never_records (cfg : AudioConfig) (n : ℕ) (fs : List Frame)
    (hquiet : ∀ f ∈ fs, rms_exceeds f cfg.audio_threshold = false)
    (hlen : ∀ f ∈ fs, f.length = n) (i : ℕ) :
    (run_frames cfg started_state (fs.take i)).recording = false ∧
    (run_frames cfg started_state (fs.take i)).pre_roll_buffer.length ≤
      (pre_roll_frames cfg n).toNat := by
  refine silent_idle_invariant cfg n (fs.take i)
    (fun f hf => hquiet f (List.take_subset i fs hf))
    (fun f hf => hlen f (List.take_subset i fs hf))
    started_state rfl ?_
  simp [started_state, initial_state]

/-- Witness for C4: three below-threshold frames in `cfgA` leave the
detector idle with a pre-roll buffer within capacity. -/
theorem C4_quiet_never_records_witness :
    (∀ f ∈ ([[0], [0], [0]] : List Frame),
      rms_exceeds f cfgA.audio_threshold = false) ∧
    (run_frames cfgA started_state
        (([[0], [0], [0]] : List Frame).take 3)).recording = false ∧
    (run_frames cfgA started_state
        (([[0], [0], [0]] : List Frame).take 3)).pre_roll_buffer.length ≤
      (pre_roll_frames cfgA 1).toNat := by
  have hq : ∀ f ∈ ([[0], [0], [0]] : List Frame),
      rms_exceeds f cfgA.audio_threshold = false := by
    intro f hf
    fin_cases hf <;> norm_num [rms_exceeds, meanSquare, sumOfSquares, cfgA]
  have hl : ∀ f ∈ ([[0], [0], [0]] : List Frame), f.length = 1 := by
    intro f hf
    fin_cases hf <;> rfl
  have h := C4_quiet_never_records cfgA 1 [[0], [0], [0]] hq hl 3
  exact ⟨hq, h.1, h.2⟩

/-- The pre-roll buffer after any uniform-length run from the started state
is exactly the suffix of the input holding the most recent
`int(pre_roll * sample_rate / frame_len)` frames (all of the input when it is
shorter). -/
theorem pre_roll_tracks (cfg : AudioConfig) (n : ℕ) :
    ∀ fs : List Frame, (∀ f ∈ fs, f.length = n) →
      (run_frames cfg started_state fs).pre_roll_buffer =
        fs.drop (fs.length - (pre_roll_frames cfg n).toNat) := by
  intro fs
  induction fs using List.reverseRecOn with
  | nil =>
    intro _
    simp [run_frames, started_state, initial_state]
  | append_singleton fs f ih =>
    intro hlen
    have hlen' : ∀ g ∈ fs, g.length = n :=
      fun g hg => hlen g (List.mem_append_left _ hg)
    have hfn : f.length = n :=
      hlen f (List.mem_append_right _ (List.mem_singleton_self f))
    have hb := ih hlen'
    rw [run_frames_append, run_frames_singleton, audio_callback_pre_roll]
    unfold update_pre_roll
    dsimp only
    rw [hb, hfn]
    set cap : ℤ := pre_roll_frames cfg n with hcap
    set N : ℕ := cap.toNat with hN
    set b : List Frame := fs.drop (fs.length - N) with hbdef
    have hbl : b.length = fs.length - (fs.length - N) := List.length_drop _ _
    rcases Nat.lt_or_ge fs.length N with hlt | hge
    · have hcond : ¬ (((b ++ [f]).length : ℤ) > cap) := by
        rw [List.length_append, List.length_singleton, hbl]
        omega
      rw [if_neg hcond]
      have h0 : fs.length - N = 0 := by omega
      have h1 : fs.length + 1 - N = 0 := by omega
      rw [hbdef, h0, List.drop_zero, List.length_append,
        List.length_singleton, h1, List.drop_zero]
    · have hcond : (((b ++ [f]).length : ℤ) > cap) := by
        rw [List.length_append, List.length_singleton, hbl]
        omega
      rw [if_pos hcond]
      rcases Nat.eq_zero_or_pos N with hN0 | hN1
      · have hbnil : b = [] := by
          rw [hbdef, hN0, Nat.sub_zero]
          exact List.drop_eq_nil_of_le (le_refl _)
        rw [hbnil]
        have : fs.length + 1 - N = fs.length + 1 := by omega
        rw [List.length_append, List.length_singleton, this]
        rw [List.drop_eq_nil_of_le (by rw [List.length_append]; simp)]
        rfl
      · have hbne : b ≠ [] := by
          intro hcon
          have := congrArg List.length hcon
          rw [hbl] at this
          simp at this
          omega
        have htail : (b ++ [f]).tail = b.tail ++ [f] := by
          rcases b with _ | ⟨x, xs⟩
          · exact absurd rfl hbne
          · rfl
        rw [htail, hbdef, List.tail_drop]
        have hdrop : (fs ++ [f]).drop ((fs ++ [f]).length - N) =
            fs.drop (fs.length + 1 - N) ++ [f] := by
          rw [List.length_append, List.length_singleton]
          exact List.drop_append_of_le_length (by omega)
        rw [hdrop]
        have : fs.length - N + 1 = fs.length + 1 - N := by omega
        rw [this]

/-- C5 counterexample: with `sample_rate = 2`, `pre_roll = 5/4` and
one-sample frames, the spec's capacity `ceil(pre_roll * sample_rate /
frame_len)` is 3, yet after three frames the buffer holds only 2 frames —
the code truncates (`int(...)`) instead of taking the ceiling. -/
theorem C5_capacity_counterexample :
    ⌈cfgC.pre_roll * (cfgC.sample_rate : ℚ) / ((1 : ℕ) : ℚ)⌉ = 3 ∧
    (run_frames cfgC started_state
        [[0], [0], [0]]).pre_roll_buffer.length = 2 := by
  constructor
  · rw [Int.ceil_eq_iff]
    norm_num [cfgC]
  · norm_num [run_frames, List.foldl, audio_callback, update_pre_roll,
      pre_roll_frames, pyTrunc, rms_exceeds, meanSquare, sumOfSquares,
      start_recording, handle_recording, should_stop_recording,
      stop_recording, queue_full, started_state, initial_state, cfgC]

/-- C5 amended: the pre-roll buffer retains exactly the most recent N frames
in temporal order where N is the truncation `int(pre_roll * sample_rate /
frame_len)` (not the ceiling), and its length never exceeds N. -/
theorem C5_pre_roll_window_amended (cfg : AudioConfig) (n : ℕ)
    (fs : List Frame) (hlen : ∀ f ∈ fs, f.length = n) :
    (run_frames cfg started_state fs).pre_roll_buffer =
      fs.drop (fs.length - (pre_roll_frames cfg n).toNat) ∧
    (run_frames cfg started_state fs).pre_roll_buffer.length ≤
      (pre_roll_frames cfg n).toNat := by
  have h := pre_roll_tracks cfg n fs hlen
  refine ⟨h, ?_⟩
  rw [h, List.length_drop]
  omega

/-- Witness for the amended C5: in `cfgC` (capacity 2) the buffer after three
frames is exactly the last two frames. -/
theorem C5_pre_roll_window_amended_witness :
    (∀ f ∈ ([[0], [1], [2]] : List Frame), f.length = 1) ∧
    (run_frames cfgC started_state
        ([[0], [1], [2]] : List Frame)).pre_roll_buffer = [[1], [2]] := by
  have hl : ∀ f ∈ ([[0], [1], [2]] : List Frame), f.length = 1 := by
    intro f hf
    fin_cases hf <;> rfl
  refine ⟨hl, ?_⟩
  have h := (C5_pre_roll_window_amended cfgC 1 [[0], [1], [2]] hl).1
  rw [h]
  norm_num [pre_roll_frames, pyTrunc, cfgC]
  rfl

/-- Draining a queue with the terminate flag clear processes every item in
arrival order. -/
theorem drain_fifo_aux :
    ∀ (q p : List (List ℚ)),
      drain_iter (2 * q.length)
          { phase := .checking, queue := q, terminated := false,
            processed := p } =
        { phase := .checking, queue := [], terminated := false,
          processed := p ++ q } := by
  intro q
  induction q with
  | nil => intro p; simp [drain_iter]
  | cons x rest ih =>
    intro p
    have h2 : 2 * (x :: rest).length = 2 * rest.length + 2 := by
      simp [List.length_cons]
      ring
    rw [h2]
    have e : drain_iter (2 * rest.length + 2)
        { phase := .checking, queue := x :: rest, terminated := false,
          processed := p } =
        drain_iter (2 * rest.length)
          { phase := .checking, queue := rest, terminated := false,
            processed := p ++ [x] } := rfl
    rw [e, ih (p ++ [x])]
    simp

/-- C6: with the event loop reference set, finalizing a segment into a full
hand-off queue never blocks — the attempt returns at once having dropped the
utterance, logged exactly one warning, cleared the buffer, and left capture
able to continue (the detector is idle again, the queue untouched); with room
in the queue the utterance is appended; and a drain of the queue processes
the accepted utterances in FIFO (arrival) order. -/
theorem C6_handoff_queue_policy (cfg : AudioConfig) (s : ReceiverState)
    (hloop : s.loop_set = true) :
    (queue_full cfg s.audio_queue = true →
      (stop_recording cfg s).audio_queue = s.audio_queue ∧
      (stop_recording cfg s).dropped_count = s.dropped_count + 1 ∧
      (stop_recording cfg s).audio_frames = [] ∧
      (stop_recording cfg s).recording = false) ∧
    (queue_full cfg s.audio_queue = false →
      (stop_recording cfg s).audio_queue =
        s.audio_queue ++ [s.audio_frames.flatten] ∧
      (stop_recording cfg s).dropped_count = s.dropped_count) ∧
    (∀ q : List (List ℚ),
      (drain_iter (2 * q.length)
        { phase := .checking, queue := q, terminated := false,
          processed := [] }).processed = q) := by
  refine ⟨?_, ?_, ?_⟩
  · intro hfull
    have h := stop_recording_dropped_of cfg s (by rw [hloop, hfull]; rfl)
    exact ⟨h.1, h.2, stop_recording_audio_frames cfg s,
      stop_recording_recording cfg s⟩
  · intro hfull
    exact stop_recording_audio_queue_of cfg s hloop hfull
  · intro q
    rw [drain_fifo_aux q []]
    simp

/-- Witness for C6: a full one-slot queue drops the new utterance with one
warning, and a two-element queue drains in FIFO order. -/
theorem C6_handoff_queue_policy_witness :
    sD.loop_set = true ∧ queue_full cfgD sD.audio_queue = true ∧
    (stop_recording cfgD sD).audio_queue = sD.audio_queue ∧
    (stop_recording cfgD sD).dropped_count = sD.dropped_count + 1 ∧
    (drain_iter 4
      { phase := .checking, queue := [[1], [2]], terminated := false,
        processed := [] }).processed = [[1], [2]] := by
  have h := C6_handoff_queue_policy cfgD sD rfl
  have hf := h.1 rfl
  refine ⟨rfl, rfl, hf.1, hf.2.1, ?_⟩
  have hq := h.2.2 [[1], [2]]
  simpa using hq

/-- C7 (refuting the claimed cancellation): once the loop is suspended in
`audio_queue.get()` on an empty queue, setting the terminate flag does not
wake it — after any number of steps it is still waiting and never reaches the
terminated phase, because the flag is only consulted at the top of the
`while` loop and `get()` completes only when an item arrives. -/
theorem C7_shutdown_leaves_get_blocked :
    (∀ n : ℕ, (drain_iter n blocked_after_shutdown).phase =
      DrainPhase.waiting) ∧
    (∀ n : ℕ, (drain_iter n blocked_after_shutdown).phase ≠
      DrainPhase.done) := by
  have hstep : drain_step blocked_after_shutdown = blocked_after_shutdown :=
    rfl
  have hall : ∀ n : ℕ, drain_iter n blocked_after_shutdown =
      blocked_after_shutdown := by
    intro n
    induction n with
    | zero => rfl
    | succ k ih =>
      have e : drain_iter (k + 1) blocked_after_shutdown =
          drain_iter k (drain_step blocked_after_shutdown) := rfl
      rw [e, hstep]
      exact ih
  constructor
  · intro n
    rw [hall n]
    rfl
  · intro n
    rw [hall n]
    intro hcon
    exact DrainPhase.noConfusion hcon

/-- C8: neither backend's `transcribe` ever propagates an exception — both
are total functions into an optional result; a failed service call maps to an
absent result (with the error logged), a response with no recognizable speech
maps to an absent result, and a present result can only come from a
successful response carrying at least one alternative. -/
theorem C8_transcribe_never_raises (language : String) :
    (∀ msg : String,
      googleChirpTranscribe language (.failure msg) = none) ∧
    googleChirpTranscribe language (.response []) = none ∧
    (∀ more : List (List SpeechAlternative),
      googleChirpTranscribe language (.response ([] :: more)) = none) ∧
    (∀ msg : String, whisperTranscribe language (.failure msg) = none) ∧
    (∀ o : GoogleOutcome,
      (googleChirpTranscribe language o).isSome = true →
      ∃ a rest more, o = .response ((a :: rest) :: more)) ∧
    (∀ o : WhisperOutcome, (whisperTranscribe language o).isSome = true →
      ∃ t, o = .response t) := by
  refine ⟨fun _ => rfl, rfl, fun _ => rfl, fun _ => rfl, ?_, ?_⟩
  · intro o h
    match o with
    | .failure m => simp [googleChirpTranscribe] at h
    | .response [] => simp [googleChirpTranscribe] at h
    | .response ([] :: more) => simp [googleChirpTranscribe] at h
    | .response ((a :: rest) :: more) => exact ⟨a, rest, more, rfl⟩
  · intro o h
    match o with
    | .failure m => simp [whisperTranscribe] at h
    | .response t => exact ⟨t, rfl⟩

/-- Witness for C8: concrete failure and empty-response outcomes map to an
absent result for both backends. -/
theorem C8_transcribe_never_raises_witness :
    googleChirpTranscribe "en-US" (.failure "network down") = none ∧
    whisperTranscribe "en-US" (.failure "network down") = none ∧
    googleChirpTranscribe "en-US" (.response []) = none := by
  have h := C8_transcribe_never_raises "en-US"
  exact ⟨h.1 "network down", h.2.2.2.1 "network down", h.2.1⟩

/-- C9: per processed utterance the sink is invoked at most once, and exactly
when the backend produced a present result with non-empty text; the sink then
receives exactly that text; an absent result or an empty text yields no
invocation. -/
theorem C9_sink_invocation_gate :
    (∀ r : TranscriptionResult, r.text ≠ "" →
      sink_invocations (some r) = [r.text]) ∧
    (∀ r : TranscriptionResult, r.text = "" →
      sink_invocations (some r) = []) ∧
    sink_invocations none = [] ∧
    (∀ o : Option TranscriptionResult, (sink_invocations o).length ≤ 1) ∧
    (∀ o : Option TranscriptionResult,
      sink_invocations o ≠ [] ↔ ∃ r, o = some r ∧ r.text ≠ "") := by
  refine ⟨?_, ?_, rfl, ?_, ?_⟩
  · intro r h
    simp [sink_invocations, h]
  · intro r h
    simp [sink_invocations, h]
  · intro o
    match o with
    | none => simp [sink_invocations]
    | some r => by_cases h : r.text = "" <;> simp [sink_invocations, h]
  · intro o
    match o with
    | none => simp [sink_invocations]
    | some r => by_cases h : r.text = "" <;> simp [sink_invocations, h]

/-- Witness for C9: a non-empty transcript is forwarded verbatim, an empty
transcript and an absent result are not forwarded. -/
theorem C9_sink_invocation_gate_witness :
    sink_invocations (some { text := "hello" }) = ["hello"] ∧
    sink_invocations (some { text := "" }) = [] ∧
    sink_invocations none = [] := by
  have h := C9_sink_invocation_gate
  exact ⟨h.1 { text := "hello" } (by decide), h.2.1 { text := "" } rfl,
    h.2.2.1⟩

/-- C10: a frame that triggers the idle-to-recording transition (with pre-roll
capacity at least one frame and a frame shorter than `min_duration`) ends up
twice in the utterance buffer: it is appended to the pre-roll buffer before
the state check, the buffer is seeded from that pre-roll copy (whose last
element is the frame itself), and the recording handler appends the same
frame once more in the same callback invocation. -/
theorem C10_trigger_frame_duplicated (cfg : AudioConfig) (s : ReceiverState)
    (f : Frame) (hidle : s.recording = false)
    (hloud : rms_exceeds f cfg.audio_threshold = true)
    (hcap : 1 ≤ pre_roll_frames cfg f.length)
    (hshort : (f.length : ℚ) / (cfg.sample_rate : ℚ) < cfg.min_duration) :
    (audio_callback cfg s f).audio_frames =
      (update_pre_roll cfg s f).pre_roll_buffer ++ [f] ∧
    (update_pre_roll cfg s f).pre_roll_buffer.getLast? = some f ∧
    2 ≤ (audio_callback cfg s f).audio_frames.count f := by
  have hstep := idle_loud_step_fields cfg s f hidle hloud (by
    intro hcon
    linarith [hcon.2])
  have hframes := hstep.2.2.2.2.2
  have hform : ∃ w, (update_pre_roll cfg s f).pre_roll_buffer = w ++ [f] := by
    unfold update_pre_roll
    dsimp only
    by_cases hc : ((s.pre_roll_buffer ++ [f]).length : ℤ) >
        pre_roll_frames cfg f.length
    · rw [if_pos hc]
      rcases hbuf : s.pre_roll_buffer with _ | ⟨x, xs⟩
      · exfalso
        rw [hbuf, List.length_append, List.length_singleton] at hc
        simp at hc
        omega
      · exact ⟨xs, rfl⟩
    · rw [if_neg hc]
      exact ⟨s.pre_roll_buffer, rfl⟩
  rcases hform with ⟨w, hw⟩
  refine ⟨hframes, by rw [hw]; exact List.getLast?_concat w, ?_⟩
  rw [hframes, hw, List.count_append, List.count_append,
    List.count_singleton]
  simp

/-- Witness for C10: in `cfgB` a loud one-sample frame from the started state
appears (at least) twice in the freshly seeded utterance buffer. -/
theorem C10_trigger_frame_duplicated_witness :
    started_state.recording = false ∧
    rms_exceeds [1] cfgB.audio_threshold = true ∧
    (1 : ℤ) ≤ pre_roll_frames cfgB 1 ∧
    2 ≤ (audio_callback cfgB started_state [1]).audio_frames.count [1] := by
  have h1 : rms_exceeds [1] cfgB.audio_threshold = true := by
    norm_num [rms_exceeds, meanSquare, sumOfSquares, cfgB]
  have h2 : (1 : ℤ) ≤ pre_roll_frames cfgB 1 := by
    norm_num [pre_roll_frames, pyTrunc, cfgB]
  have h := C10_trigger_frame_duplicated cfgB started_state [1] rfl h1
    (by simpa using h2) (by norm_num [cfgB])
  exact ⟨rfl, h1, h2, h.2.2⟩

end LaunchControl
